import Mathlib

/-!
Shallow embedding of the FM kick-drum synthesizer voice engine
(`src/synth.h`, class `Synth`) over the rationals.

Machine floats are modelled by `ℚ`; the transcendental library calls
(`std::sin` composed with the `2π` phase scaling, `std::tanh`) and the
`std::rand`-based noise source are modelled as oracle inputs, so every
theorem quantifies over all possible values those calls could return.
Decimal literals in the source (`0.35013f`, `1.16f`, ...) are exact
rationals.
-/

namespace KickSynth

/-- Amplitude-envelope state machine states (`k_state_off` /
`k_state_attack` / `k_state_decay` / `k_state_release`). -/
inductive EnvState where
  | off : EnvState
  | attack : EnvState
  | decay : EnvState
  | release : EnvState
deriving DecidableEq, Repr

/-- The drumlogue sample rate constant `k_samplerate = 48000.0f`. -/
def k_samplerate : ℚ := 48000

/-- Number of secondary-oscillator waveforms (`k_num_waves`). -/
def k_num_waves : ℕ := 5

/-- `s_waveform_names` lookup table. -/
def s_waveform_names : List String := ["Sine", "Saw", "Triangle", "Pulse", "Noise"]

/-- `s_preset_names` lookup table. -/
def s_preset_names : List String := ["Basic", "Punchy", "Sub Bass", "FM Kick", "Noise Attack"]

/-- Index of the secondary-oscillator waveform parameter
(`k_param_osc2_waveform`, 17th entry of the parameter enum). -/
def k_param_osc2_waveform : ℕ := 16

/-- The complete member state of class `Synth`: oscillator phases,
envelopes, voice metadata, and the parameter set.  Field names follow the
C++ members; the `filter_state_[4]` array becomes four scalar fields. -/
structure Synth where
  phase1_ : ℚ
  phase2_ : ℚ
  click_phase_ : ℚ
  envelope_ : ℚ
  pitch_envelope_ : ℚ
  osc2_envelope_ : ℚ
  click_envelope_ : ℚ
  envelope_state_ : EnvState
  current_note_ : ℕ
  current_velocity_ : ℚ
  preset_index_ : ℕ
  pitch_ : ℚ
  decay_ : ℚ
  pitch_curve_ : ℚ
  body_level_ : ℚ
  drive_ : ℚ
  attack_ : ℚ
  release_ : ℚ
  click_level_ : ℚ
  click_freq_ : ℚ
  click_decay_ : ℚ
  click_tone_ : ℚ
  last_noise_ : ℚ
  filter_enabled_ : Bool
  filter_cutoff_ : ℚ
  filter_resonance_ : ℚ
  filter_mode_24db_ : Bool
  filter_state_0 : ℚ
  filter_state_1 : ℚ
  filter_state_2 : ℚ
  filter_state_3 : ℚ
  osc2_enabled_ : ℕ
  osc2_waveform_ : ℕ
  osc2_pitch_ : ℚ
  osc2_level_ : ℚ
  fm_amount_ : ℚ
  fm_ratio_ : ℚ
  osc2_decay_ : ℚ
  pulse_width_ : ℚ

/-- Oracle for the two transcendental library functions used by the
engine: `sin2pi q` models `std::sin(q * k_twopi)` and `tanhq` models
`std::tanh`. -/
structure MathOracle where
  sin2pi : ℚ → ℚ
  tanhq : ℚ → ℚ

/-- `waveformSaw`: `2.0f * phase - 1.0f`. -/
def waveformSaw (phase : ℚ) : ℚ := 2 * phase - 1

/-- `waveformTriangle`: `2.0f * (fabs(2.0f * phase - 1.0f) - 0.5f)`. -/
def waveformTriangle (phase : ℚ) : ℚ := 2 * (|2 * phase - 1| - 0.5)

/-- `waveformPulse`: `phase < width ? 1.0f : -1.0f`. -/
def waveformPulse (phase width : ℚ) : ℚ := if phase < width then 1 else -1

/-- `reset()`: re-zeros the voice state (phases, envelopes, state machine,
note/velocity, filter accumulators, click history) and also forces
`filter_enabled_` and `filter_mode_24db_` to `false`. -/
def reset (s : Synth) : Synth :=
  { s with
    phase1_ := 0
    phase2_ := 0
    click_phase_ := 0
    envelope_ := 0
    envelope_state_ := EnvState.off
    pitch_envelope_ := 0
    osc2_envelope_ := 0
    current_note_ := 0
    current_velocity_ := 0
    filter_enabled_ := false
    filter_mode_24db_ := false
    filter_state_0 := 0
    filter_state_1 := 0
    filter_state_2 := 0
    filter_state_3 := 0
    last_noise_ := 0
    click_envelope_ := 0 }

/-- `initParams()`: restores the default parameter values. -/
def initParams (s : Synth) : Synth :=
  { s with
    pitch_ := 55
    decay_ := 130
    click_level_ := 0.5
    pitch_curve_ := 0.5
    body_level_ := 0.9
    drive_ := 0.4
    attack_ := 2
    release_ := 300
    osc2_enabled_ := 1
    osc2_waveform_ := 0
    osc2_pitch_ := 2
    osc2_level_ := 0.5
    fm_amount_ := 0
    fm_ratio_ := 2
    osc2_decay_ := 100
    pulse_width_ := 0.5
    click_freq_ := 200
    click_decay_ := 20
    click_tone_ := 0.6
    filter_enabled_ := false
    filter_cutoff_ := 0.7
    filter_resonance_ := 0.2
    filter_mode_24db_ := false
    preset_index_ := 0
    last_noise_ := 0
    click_envelope_ := 0 }

/-- A ground state from which the constructor effect is expressed; the
constructor runs `reset(); initParams();` which overwrite every field. -/
def zeroSynth : Synth :=
  { phase1_ := 0, phase2_ := 0, click_phase_ := 0, envelope_ := 0
    pitch_envelope_ := 0, osc2_envelope_ := 0, click_envelope_ := 0
    envelope_state_ := EnvState.off, current_note_ := 0, current_velocity_ := 0
    preset_index_ := 0, pitch_ := 0, decay_ := 0, pitch_curve_ := 0
    body_level_ := 0, drive_ := 0, attack_ := 0, release_ := 0
    click_level_ := 0, click_freq_ := 0, click_decay_ := 0, click_tone_ := 0
    last_noise_ := 0, filter_enabled_ := false, filter_cutoff_ := 0
    filter_resonance_ := 0, filter_mode_24db_ := false
    filter_state_0 := 0, filter_state_1 := 0, filter_state_2 := 0, filter_state_3 := 0
    osc2_enabled_ := 0, osc2_waveform_ := 0, osc2_pitch_ := 0, osc2_level_ := 0
    fm_amount_ := 0, fm_ratio_ := 0, osc2_decay_ := 0, pulse_width_ := 0 }

/-- State produced by the constructor `Synth()` (`reset(); initParams();`). -/
def defaultSynth : Synth := initParams (reset zeroSynth)

/-- `NoteOn(note, velocity)`: records note and normalized velocity, puts
the machine in Attack with `envelope_ = 0`, resets the pitch/osc2/click
envelopes to 1, and zeroes click history and filter state. -/
def NoteOn (note velocity : ℕ) (s : Synth) : Synth :=
  { s with
    current_note_ := note
    current_velocity_ := (velocity : ℚ) / 127
    envelope_state_ := EnvState.attack
    envelope_ := 0
    pitch_envelope_ := 1
    osc2_envelope_ := 1
    click_envelope_ := 1
    last_noise_ := 0
    filter_state_0 := 0
    filter_state_1 := 0
    filter_state_2 := 0
    filter_state_3 := 0 }

/-- `NoteOff(note)`: enters Release whenever `note` matches the current
note or the `0xFF` wildcard, regardless of the current machine state. -/
def NoteOff (note : ℕ) (s : Synth) : Synth :=
  if note = s.current_note_ ∨ note = 255 then
    { s with envelope_state_ := EnvState.release }
  else s

/-- Per-sample amplitude-envelope increment while in Attack:
`1.f / (attack_ / 1000.f * k_samplerate)`. -/
def attackInc (s : Synth) : ℚ := 1 / (s.attack_ / 1000 * k_samplerate)

/-- Per-sample amplitude-envelope decrement used by both the Decay and
the Release branch: `1.f / (release_ / 1000.f * k_samplerate)`. -/
def releaseDec (s : Synth) : ℚ := 1 / (s.release_ / 1000 * k_samplerate)

/-- The `switch (envelope_state_)` block at the top of `process()`:
Attack adds `attackInc` and clamps at 1 (entering Decay); Decay and
Release both subtract `releaseDec` and clamp at 0 (entering Off);
Off does nothing. -/
def ampEnvStep (s : Synth) : Synth :=
  if s.envelope_state_ = EnvState.attack then
    if 1 ≤ s.envelope_ + attackInc s then
      { s with envelope_ := 1, envelope_state_ := EnvState.decay }
    else { s with envelope_ := s.envelope_ + attackInc s }
  else if s.envelope_state_ = EnvState.decay then
    if s.envelope_ - releaseDec s ≤ 0 then
      { s with envelope_ := 0, envelope_state_ := EnvState.off }
    else { s with envelope_ := s.envelope_ - releaseDec s }
  else if s.envelope_state_ = EnvState.release then
    if s.envelope_ - releaseDec s ≤ 0 then
      { s with envelope_ := 0, envelope_state_ := EnvState.off }
    else { s with envelope_ := s.envelope_ - releaseDec s }
  else s

/-- Clamp-at-zero helper for the auxiliary envelopes
(`if (x < 0.f) x = 0.f`). -/
def clamp0 (x : ℚ) : ℚ := if x < 0 then 0 else x

/-- The pitch/osc2/click envelope decay block of `process()`, executed
only while `envelope_state_ != k_state_off`. -/
def auxEnvStep (s : Synth) : Synth :=
  if s.envelope_state_ ≠ EnvState.off then
    { s with
      pitch_envelope_ := clamp0 (s.pitch_envelope_ - 1 / (s.decay_ / 1000 * k_samplerate))
      osc2_envelope_ := clamp0 (s.osc2_envelope_ - 1 / (s.osc2_decay_ / 1000 * k_samplerate))
      click_envelope_ := clamp0 (s.click_envelope_ - 1 / (s.click_decay_ / 1000 * k_samplerate)) }
  else s

/-- Both envelope blocks of `process()` in source order. -/
def envStage (s : Synth) : Synth := auxEnvStep (ampEnvStep s)

/-- `current_pitch = pitch_ * (1.f - pitch_envelope_ * pitch_curve_)`. -/
def currentPitch (s : Synth) : ℚ := s.pitch_ * (1 - s.pitch_envelope_ * s.pitch_curve_)

/-- The FM offset: `sine(phase2_) * fm_amount_ * osc2_envelope_ * 100`,
present only when the secondary oscillator is enabled and the FM amount
is strictly positive. -/
def fmMod (m : MathOracle) (s : Synth) : ℚ :=
  if s.osc2_enabled_ ≠ 0 ∧ 0 < s.fm_amount_ then
    m.sin2pi s.phase2_ * s.fm_amount_ * s.osc2_envelope_ * 100
  else 0

/-- Phase wrap used after every phase advance:
`if (phase >= 1.f) phase -= 1.f` — a single conditional subtraction,
with no wrap at the lower end. -/
def wrapPhase (p : ℚ) : ℚ := if 1 ≤ p then p - 1 else p

/-- Secondary-oscillator waveform dispatch (`switch (osc2_waveform_)`);
`noiseA` models the `std::rand()`-based sample drawn in the noise case. -/
def osc2Wave (m : MathOracle) (noiseA : ℚ) (s : Synth) (p : ℚ) : ℚ :=
  if s.osc2_waveform_ = 0 then m.sin2pi p
  else if s.osc2_waveform_ = 1 then waveformSaw p
  else if s.osc2_waveform_ = 2 then waveformTriangle p
  else if s.osc2_waveform_ = 3 then waveformPulse p s.pulse_width_
  else if s.osc2_waveform_ = 4 then noiseA
  else m.sin2pi p

/-- The filter block of `process()`: returns the (possibly filtered)
sample together with the four updated filter accumulators.  The 2-pole
mode only writes accumulators 0 and 1. -/
def filterApply (s : Synth) (x : ℚ) : ℚ × ℚ × ℚ × ℚ × ℚ :=
  if s.filter_enabled_ then
    let cutoff := s.filter_cutoff_ * 0.9 + 0.1
    let resonance := s.filter_resonance_ * 0.98
    if s.filter_mode_24db_ then
      let f := cutoff * 1.16
      let fb := resonance * 4 * (1 - 0.15 * f * f)
      let input := (x - s.filter_state_3 * fb) * (0.35013 * f * f * f * f)
      let st0 := input + 0.3 * s.filter_state_0
      let st1 := st0 + 0.3 * s.filter_state_1
      let st2 := st1 + 0.3 * s.filter_state_2
      let st3 := st2 + 0.3 * s.filter_state_3
      (st3, st0, st1, st2, st3)
    else
      let f := cutoff * 1.16
      let fb := resonance * 2.5 * (1 - 0.2 * f * f)
      let input := (x - s.filter_state_1 * fb) * (0.35013 * f * f)
      let st0 := input + 0.3 * s.filter_state_0
      let st1 := st0 + 0.3 * s.filter_state_1
      (st1, st0, st1, s.filter_state_2, s.filter_state_3)
  else (x, s.filter_state_0, s.filter_state_1, s.filter_state_2, s.filter_state_3)

/-- Final hard limiter: `if (out > 1) out = 1; if (out < -1) out = -1`. -/
def hardClip (x : ℚ) : ℚ := if 1 < x then 1 else if x < -1 then -1 else x

/-- One call of `process()`: envelope stages, pitch sweep, FM, the three
phase advances, waveform evaluation, click generation, mix, drive,
filter, makeup gain, envelope/velocity scaling and the hard limiter.
`noiseA`/`noiseB` model the `std::rand()` draws of the osc2 noise
waveform and the click noise source. -/
def process (m : MathOracle) (noiseA noiseB : ℚ) (s0 : Synth) : ℚ × Synth :=
  let s := envStage s0
  let freq1 := currentPitch s
  let freq2 := currentPitch s * s.osc2_pitch_
  let fm_mod := fmMod m s
  let phase1' := wrapPhase (s.phase1_ + (freq1 + fm_mod) / k_samplerate)
  let phase2' := wrapPhase (s.phase2_ + freq2 * s.fm_ratio_ / k_samplerate)
  let click_phase' := wrapPhase (s.click_phase_ + s.click_freq_ / k_samplerate)
  let body := m.sin2pi phase1' * s.body_level_
  let osc2_out :=
    if s.osc2_enabled_ ≠ 0 then osc2Wave m noiseA s phase2' * s.osc2_level_ * s.osc2_envelope_
    else 0
  let clickOn := s.envelope_state_ ≠ EnvState.off ∧ 0 < s.click_envelope_
  let click_source := noiseB * (1 - s.click_tone_) + m.sin2pi click_phase' * s.click_tone_
  let hp_click := click_source - s.last_noise_ * 0.7
  let click := if clickOn then hp_click * s.click_level_ * s.click_envelope_ * 3 else 0
  let last_noise' := if clickOn then click_source else s.last_noise_
  let mixed := body + osc2_out + click
  let driven :=
    if 0 < s.drive_ then m.tanhq (mixed * (1 + s.drive_ * 4)) * (1 / (1 + s.drive_ * 1.5))
    else mixed
  let fr := filterApply s driven
  let out := hardClip (fr.1 * 1.3 * s.envelope_ * s.current_velocity_)
  (out,
   { s with
     phase1_ := phase1'
     phase2_ := phase2'
     click_phase_ := click_phase'
     last_noise_ := last_noise'
     filter_state_0 := fr.2.1
     filter_state_1 := fr.2.2.1
     filter_state_2 := fr.2.2.2.1
     filter_state_3 := fr.2.2.2.2 })

/-- `Render(out, frames)`: processes `frames` samples in sequence,
writing each sample to both stereo channels; `noise` supplies the two
random draws of each sample. -/
def Render (m : MathOracle) (noise : ℕ → ℚ × ℚ) (s : Synth) : ℕ → List (ℚ × ℚ) × Synth
  | 0 => ([], s)
  | n + 1 =>
    let r := process m (noise 0).1 (noise 0).2 s
    let rest := Render m (fun k => noise (k + 1)) r.2 n
    ((r.1, r.1) :: rest.1, rest.2)

/-- `getPresetIndex()`. -/
def getPresetIndex (s : Synth) : ℕ := s.preset_index_

/-- `LoadPreset(index)`: unconditionally records the index, then
overwrites the full parameter set for the five known presets; unknown
indices fall through the `switch` default. -/
def LoadPreset (index : ℕ) (s0 : Synth) : Synth :=
  let s := { s0 with preset_index_ := index }
  match index with
  | 0 =>
    { s with
      pitch_ := 55, decay_ := 130, pitch_curve_ := 0.5, body_level_ := 0.9
      drive_ := 0.4, attack_ := 3, release_ := 300
      click_level_ := 0.5, click_freq_ := 200, click_decay_ := 20, click_tone_ := 0.6
      filter_enabled_ := false, filter_cutoff_ := 0.7, filter_resonance_ := 0.2
      filter_mode_24db_ := false
      osc2_enabled_ := 0, osc2_waveform_ := 0, osc2_pitch_ := 2, osc2_level_ := 0
      fm_amount_ := 0, fm_ratio_ := 2, osc2_decay_ := 100 }
  | 1 =>
    { s with
      pitch_ := 70, decay_ := 80, pitch_curve_ := 0.7, body_level_ := 0.9
      drive_ := 0.6, attack_ := 1, release_ := 180
      click_level_ := 0.8, click_freq_ := 250, click_decay_ := 15, click_tone_ := 0.5
      filter_enabled_ := true, filter_cutoff_ := 0.9, filter_resonance_ := 0.3
      filter_mode_24db_ := false
      osc2_enabled_ := 0, osc2_waveform_ := 0, osc2_pitch_ := 2, osc2_level_ := 0
      fm_amount_ := 0, fm_ratio_ := 2, osc2_decay_ := 100 }
  | 2 =>
    { s with
      pitch_ := 45, decay_ := 250, pitch_curve_ := 0.3, body_level_ := 0.95
      drive_ := 0.35, attack_ := 8, release_ := 500
      click_level_ := 0.3, click_freq_ := 180, click_decay_ := 25, click_tone_ := 0.7
      filter_enabled_ := true, filter_cutoff_ := 0.6, filter_resonance_ := 0.1
      filter_mode_24db_ := true
      osc2_enabled_ := 0, osc2_waveform_ := 0, osc2_pitch_ := 2, osc2_level_ := 0
      fm_amount_ := 0, fm_ratio_ := 2, osc2_decay_ := 100 }
  | 3 =>
    { s with
      pitch_ := 55, decay_ := 180, pitch_curve_ := 0.6, body_level_ := 0.7
      drive_ := 0.5, attack_ := 3, release_ := 250
      click_level_ := 0.4, click_freq_ := 220, click_decay_ := 18, click_tone_ := 0.8
      filter_enabled_ := true, filter_cutoff_ := 0.85, filter_resonance_ := 0.4
      filter_mode_24db_ := false
      osc2_enabled_ := 1, osc2_waveform_ := 0, osc2_pitch_ := 3, osc2_level_ := 0.6
      fm_amount_ := 0.7, fm_ratio_ := 2.7, osc2_decay_ := 80 }
  | 4 =>
    { s with
      pitch_ := 50, decay_ := 200, pitch_curve_ := 0.5, body_level_ := 0.85
      drive_ := 0.4, attack_ := 2, release_ := 280
      click_level_ := 0.7, click_freq_ := 300, click_decay_ := 12, click_tone_ := 0.3
      filter_enabled_ := true, filter_cutoff_ := 0.95, filter_resonance_ := 0.3
      filter_mode_24db_ := false
      osc2_enabled_ := 1, osc2_waveform_ := 4, osc2_pitch_ := 1, osc2_level_ := 0.7
      fm_amount_ := 0, fm_ratio_ := 1, osc2_decay_ := 20 }
  | _ => s

/-- `getParameterStrValue(index, value)`: the `(uint8_t)value` cast is
reduction modulo 256; in-range bytes index the waveform-name table,
everything else yields the `"---"` sentinel. -/
def getParameterStrValue (index : ℕ) (value : ℤ) : String :=
  if index = k_param_osc2_waveform then
    let wave_idx := (value % 256).toNat
    if wave_idx < k_num_waves then s_waveform_names.getD wave_idx "---"
    else "---"
  else "---"

/-- The fields of `unit_runtime_desc_t` inspected by `Init`. -/
structure UnitRuntimeDesc where
  samplerate : ℕ
  output_channels : ℕ

/-- The three `k_unit_err_*` result codes `Init` can return (distinct
values of the hosting SDK's error enum). -/
inductive UnitErr where
  | err_none : UnitErr
  | err_samplerate : UnitErr
  | err_geometry : UnitErr
deriving DecidableEq, Repr

/-- `Init(desc)`: rejects a sample rate other than 48000, then a channel
count other than 2, otherwise runs `reset(); initParams();`. -/
def Init (desc : UnitRuntimeDesc) (s : Synth) : UnitErr × Synth :=
  if desc.samplerate ≠ 48000 then (UnitErr.err_samplerate, s)
  else if desc.output_channels ≠ 2 then (UnitErr.err_geometry, s)
  else (UnitErr.err_none, initParams (reset s))

/-- Oracle for the C6 counterexample: the real `sin(2π · 3/4) = -1`,
other sample points are irrelevant and modelled as 0. -/
def m6 : MathOracle := ⟨fun q => if q = 3 / 4 then -1 else 0, fun _ => 0⟩

/-- State for the C6 counterexample: defaults (pitch 55 Hz, secondary
oscillator enabled) with the FM amount at its documented maximum 1.0
(raw 100), the osc2 envelope at 1 and the modulator phase at 3/4. -/
def s6 : Synth := { defaultSynth with phase2_ := 3 / 4, fm_amount_ := 1, osc2_envelope_ := 1 }

/-- Oracle of constant zeroes, used to witness the amended C6. -/
def mZero : MathOracle := ⟨fun _ => 0, fun _ => 0⟩

/-- Amplitude envelope value after `n` amplitude-envelope steps. -/
def envAt (s : Synth) (n : ℕ) : ℚ := (ampEnvStep^[n] s).envelope_

/-- Amplitude envelope machine state after `n` amplitude-envelope steps. -/
def stAt (s : Synth) (n : ℕ) : EnvState := (ampEnvStep^[n] s).envelope_state_

/-- The full C2 property of a state `s`, about the amplitude-envelope
machine of `process()`: the documented increment/decrement formulas, the
agreement of `process` with the envelope switch, the per-step transition
behaviour with its clamps, boundedness in `[0, 1]`, monotonicity, and the
rise-to-exactly-1 / fall-to-exactly-0 trajectory from a fresh trigger. -/
def C2Prop (s : Synth) : Prop :=
  attackInc s = 1000 / (s.attack_ * k_samplerate) ∧
  releaseDec s = 1000 / (s.release_ * k_samplerate) ∧
  (∀ m nA nB,
    (process m nA nB s).2.envelope_ = (ampEnvStep s).envelope_ ∧
    (process m nA nB s).2.envelope_state_ = (ampEnvStep s).envelope_state_) ∧
  (∀ n, stAt s n = EnvState.attack →
    (1 ≤ envAt s n + attackInc s → envAt s (n + 1) = 1 ∧ stAt s (n + 1) = EnvState.decay) ∧
    (¬ 1 ≤ envAt s n + attackInc s →
      envAt s (n + 1) = envAt s n + attackInc s ∧ stAt s (n + 1) = EnvState.attack)) ∧
  (∀ n, stAt s n = EnvState.decay ∨ stAt s n = EnvState.release →
    (envAt s n - releaseDec s ≤ 0 → envAt s (n + 1) = 0 ∧ stAt s (n + 1) = EnvState.off) ∧
    (¬ envAt s n - releaseDec s ≤ 0 →
      envAt s (n + 1) = envAt s n - releaseDec s ∧ stAt s (n + 1) = stAt s n)) ∧
  (0 ≤ s.envelope_ → s.envelope_ ≤ 1 →
    (∀ n, 0 ≤ envAt s n ∧ envAt s n ≤ 1) ∧
    (∀ n, stAt s n = EnvState.attack → envAt s n ≤ envAt s (n + 1)) ∧
    (∀ n, stAt s n = EnvState.decay ∨ stAt s n = EnvState.release →
      envAt s (n + 1) ≤ envAt s n)) ∧
  (s.envelope_ = 0 → s.envelope_state_ = EnvState.attack →
    ∃ N M, 0 < N ∧ N ≤ M ∧
      (∀ k < N, stAt s k = EnvState.attack) ∧
      envAt s N = 1 ∧ stAt s N = EnvState.decay ∧
      (∀ k, N ≤ k → k < M → stAt s k = EnvState.decay) ∧
      envAt s M = 0 ∧ stAt s M = EnvState.off ∧
      (∀ k, M ≤ k → stAt s k = EnvState.off ∧ envAt s k = 0))

/-! ## Claim C1 -/

/-- The hard limiter maps every rational into `[-1, 1]`. -/
lemma hardClip_bounds (x : ℚ) : -1 ≤ hardClip x ∧ hardClip x ≤ 1 := by
  unfold hardClip
  split_ifs <;> constructor <;> linarith

/-- The sample returned by one `process()` call is the hard-clipped
output, hence bounded, whatever the oracle and the prior state. -/
lemma process_out_bounds (m : MathOracle) (noiseA noiseB : ℚ) (s : Synth) :
    -1 ≤ (process m noiseA noiseB s).1 ∧ (process m noiseA noiseB s).1 ≤ 1 :=
  hardClip_bounds _

/-- C1: every `Render` call writes exactly `frames` stereo pairs, each
pair has identical left and right values, and every written value lies in
`[-1, 1]` — for every oracle, noise stream, prior state and frame
count. -/
theorem c1_render_stereo_bounded (m : MathOracle) (noise : ℕ → ℚ × ℚ) (s : Synth)
    (frames : ℕ) :
    (Render m noise s frames).1.length = frames ∧
    (Render m noise s frames).1.Forall
      (fun pr => pr.1 = pr.2 ∧ -1 ≤ pr.1 ∧ pr.1 ≤ 1) := by
  induction frames generalizing noise s with
  | zero => exact ⟨rfl, trivial⟩
  | succ n ih =>
    refine ⟨?_, ?_⟩
    · show (_ :: (Render m (fun k => noise (k + 1)) _ n).1).length = n + 1
      rw [List.length_cons, (ih _ _).1]
    · rw [show (Render m noise s (n + 1)).1 =
            ((process m (noise 0).1 (noise 0).2 s).1, (process m (noise 0).1 (noise 0).2 s).1) ::
              (Render m (fun k => noise (k + 1)) (process m (noise 0).1 (noise 0).2 s).2 n).1
          from rfl]
      rw [List.forall_cons]
      exact ⟨⟨rfl, process_out_bounds m (noise 0).1 (noise 0).2 s⟩, (ih _ _).2⟩

/-! ## Claim C2 -/

/-- The amplitude-envelope switch does not touch the phase accumulators. -/
lemma ampEnvStep_phase1 (s : Synth) : (ampEnvStep s).phase1_ = s.phase1_ := by
  unfold ampEnvStep
  split_ifs <;> rfl

/-- The amplitude-envelope switch does not touch the modulator phase. -/
lemma ampEnvStep_phase2 (s : Synth) : (ampEnvStep s).phase2_ = s.phase2_ := by
  unfold ampEnvStep
  split_ifs <;> rfl

/-- The amplitude-envelope switch does not touch the click phase. -/
lemma ampEnvStep_click_phase (s : Synth) : (ampEnvStep s).click_phase_ = s.click_phase_ := by
  unfold ampEnvStep
  split_ifs <;> rfl

/-- The auxiliary decay block does not touch the phase accumulators. -/
lemma auxEnvStep_phase1 (s : Synth) : (auxEnvStep s).phase1_ = s.phase1_ := by
  unfold auxEnvStep
  split_ifs <;> rfl

/-- The auxiliary decay block does not touch the modulator phase. -/
lemma auxEnvStep_phase2 (s : Synth) : (auxEnvStep s).phase2_ = s.phase2_ := by
  unfold auxEnvStep
  split_ifs <;> rfl

/-- The auxiliary decay block does not touch the click phase. -/
lemma auxEnvStep_click_phase (s : Synth) : (auxEnvStep s).click_phase_ = s.click_phase_ := by
  unfold auxEnvStep
  split_ifs <;> rfl

/-- While Idle, the amplitude-envelope switch performs no work. -/
lemma ampEnvStep_off (s : Synth) (h : s.envelope_state_ = EnvState.off) :
    ampEnvStep s = s := by
  simp [ampEnvStep, h]

/-- While Idle, the auxiliary decay block performs no work. -/
lemma auxEnvStep_off (s : Synth) (h : s.envelope_state_ = EnvState.off) :
    auxEnvStep s = s := by
  simp [auxEnvStep, h]

/-- While Idle, the whole envelope stage performs no work. -/
lemma envStage_off (s : Synth) (h : s.envelope_state_ = EnvState.off) :
    envStage s = s := by
  unfold envStage
  rw [ampEnvStep_off s h, auxEnvStep_off s h]

/-- Attack step with clamp: reaching/exceeding 1 sets exactly 1 and
enters Decay. -/
lemma ampEnvStep_attack_clamp (t : Synth) (h : t.envelope_state_ = EnvState.attack)
    (hc : 1 ≤ t.envelope_ + attackInc t) :
    ampEnvStep t = { t with envelope_ := 1, envelope_state_ := EnvState.decay } := by
  unfold ampEnvStep
  rw [if_pos h, if_pos hc]

/-- Attack step without clamp: the envelope just gains the increment. -/
lemma ampEnvStep_attack_go (t : Synth) (h : t.envelope_state_ = EnvState.attack)
    (hc : ¬ 1 ≤ t.envelope_ + attackInc t) :
    ampEnvStep t = { t with envelope_ := t.envelope_ + attackInc t } := by
  unfold ampEnvStep
  rw [if_pos h, if_neg hc]

/-- Decay step with clamp: reaching/falling below 0 sets exactly 0 and
enters Off. -/
lemma ampEnvStep_decay_clamp (t : Synth) (h : t.envelope_state_ = EnvState.decay)
    (hc : t.envelope_ - releaseDec t ≤ 0) :
    ampEnvStep t = { t with envelope_ := 0, envelope_state_ := EnvState.off } := by
  unfold ampEnvStep
  rw [if_neg (by simp [h]), if_pos h, if_pos hc]

/-- Decay step without clamp: the envelope just loses the release-rate
decrement. -/
lemma ampEnvStep_decay_go (t : Synth) (h : t.envelope_state_ = EnvState.decay)
    (hc : ¬ t.envelope_ - releaseDec t ≤ 0) :
    ampEnvStep t = { t with envelope_ := t.envelope_ - releaseDec t } := by
  unfold ampEnvStep
  rw [if_neg (by simp [h]), if_pos h, if_neg hc]

/-- Release step with clamp. -/
lemma ampEnvStep_release_clamp (t : Synth) (h : t.envelope_state_ = EnvState.release)
    (hc : t.envelope_ - releaseDec t ≤ 0) :
    ampEnvStep t = { t with envelope_ := 0, envelope_state_ := EnvState.off } := by
  unfold ampEnvStep
  rw [if_neg (by simp [h]), if_neg (by simp [h]), if_pos h, if_pos hc]

/-- Release step without clamp. -/
lemma ampEnvStep_release_go (t : Synth) (h : t.envelope_state_ = EnvState.release)
    (hc : ¬ t.envelope_ - releaseDec t ≤ 0) :
    ampEnvStep t = { t with envelope_ := t.envelope_ - releaseDec t } := by
  unfold ampEnvStep
  rw [if_neg (by simp [h]), if_neg (by simp [h]), if_pos h, if_neg hc]

/-- The envelope switch never changes the attack-time parameter. -/
lemma ampEnvStep_attack_param (t : Synth) : (ampEnvStep t).attack_ = t.attack_ := by
  unfold ampEnvStep
  split_ifs <;> rfl

/-- The envelope switch never changes the release-time parameter. -/
lemma ampEnvStep_release_param (t : Synth) : (ampEnvStep t).release_ = t.release_ := by
  unfold ampEnvStep
  split_ifs <;> rfl

/-- The per-sample attack increment is invariant along envelope steps. -/
lemma attackInc_iterate (s : Synth) (n : ℕ) :
    attackInc (ampEnvStep^[n] s) = attackInc s := by
  induction n with
  | zero => rfl
  | succ n ih =>
    rw [Function.iterate_succ_apply']
    unfold attackInc
    rw [ampEnvStep_attack_param]
    exact ih

/-- The per-sample release decrement is invariant along envelope steps. -/
lemma releaseDec_iterate (s : Synth) (n : ℕ) :
    releaseDec (ampEnvStep^[n] s) = releaseDec s := by
  induction n with
  | zero => rfl
  | succ n ih =>
    rw [Function.iterate_succ_apply']
    unfold releaseDec
    rw [ampEnvStep_release_param]
    exact ih

/-- Unfold one envelope step at the value level. -/
lemma envAt_succ (s : Synth) (n : ℕ) :
    envAt s (n + 1) = (ampEnvStep (ampEnvStep^[n] s)).envelope_ := by
  rw [envAt, Function.iterate_succ_apply']

/-- Unfold one envelope step at the state level. -/
lemma stAt_succ (s : Synth) (n : ℕ) :
    stAt s (n + 1) = (ampEnvStep (ampEnvStep^[n] s)).envelope_state_ := by
  rw [stAt, Function.iterate_succ_apply']

/-- One attack step, phrased over the iterates. -/
lemma stAt_attack_step (s : Synth) (n : ℕ) (h : stAt s n = EnvState.attack) :
    (1 ≤ envAt s n + attackInc s → envAt s (n + 1) = 1 ∧ stAt s (n + 1) = EnvState.decay) ∧
    (¬ 1 ≤ envAt s n + attackInc s →
      envAt s (n + 1) = envAt s n + attackInc s ∧ stAt s (n + 1) = EnvState.attack) := by
  constructor
  · intro hc
    have hc' : 1 ≤ (ampEnvStep^[n] s).envelope_ + attackInc (ampEnvStep^[n] s) := by
      rw [attackInc_iterate]
      exact hc
    rw [envAt_succ, stAt_succ, ampEnvStep_attack_clamp _ h hc']
    exact ⟨rfl, rfl⟩
  · intro hc
    have hc' : ¬ 1 ≤ (ampEnvStep^[n] s).envelope_ + attackInc (ampEnvStep^[n] s) := by
      rw [attackInc_iterate]
      exact hc
    rw [envAt_succ, stAt_succ, ampEnvStep_attack_go _ h hc']
    refine ⟨?_, h⟩
    show (ampEnvStep^[n] s).envelope_ + attackInc (ampEnvStep^[n] s) = envAt s n + attackInc s
    rw [attackInc_iterate, envAt]

/-- One decay step, phrased over the iterates. -/
lemma stAt_decay_step (s : Synth) (n : ℕ) (h : stAt s n = EnvState.decay) :
    (envAt s n - releaseDec s ≤ 0 → envAt s (n + 1) = 0 ∧ stAt s (n + 1) = EnvState.off) ∧
    (¬ envAt s n - releaseDec s ≤ 0 →
      envAt s (n + 1) = envAt s n - releaseDec s ∧ stAt s (n + 1) = EnvState.decay) := by
  constructor
  · intro hc
    have hc' : (ampEnvStep^[n] s).envelope_ - releaseDec (ampEnvStep^[n] s) ≤ 0 := by
      rw [releaseDec_iterate]
      exact hc
    rw [envAt_succ, stAt_succ, ampEnvStep_decay_clamp _ h hc']
    exact ⟨rfl, rfl⟩
  · intro hc
    have hc' : ¬ (ampEnvStep^[n] s).envelope_ - releaseDec (ampEnvStep^[n] s) ≤ 0 := by
      rw [releaseDec_iterate]
      exact hc
    rw [envAt_succ, stAt_succ, ampEnvStep_decay_go _ h hc']
    refine ⟨?_, h⟩
    show (ampEnvStep^[n] s).envelope_ - releaseDec (ampEnvStep^[n] s) = envAt s n - releaseDec s
    rw [releaseDec_iterate, envAt]

/-- One release step, phrased over the iterates. -/
lemma stAt_release_step (s : Synth) (n : ℕ) (h : stAt s n = EnvState.release) :
    (envAt s n - releaseDec s ≤ 0 → envAt s (n + 1) = 0 ∧ stAt s (n + 1) = EnvState.off) ∧
    (¬ envAt s n - releaseDec s ≤ 0 →
      envAt s (n + 1) = envAt s n - releaseDec s ∧ stAt s (n + 1) = EnvState.release) := by
  constructor
  · intro hc
    have hc' : (ampEnvStep^[n] s).envelope_ - releaseDec (ampEnvStep^[n] s) ≤ 0 := by
      rw [releaseDec_iterate]
      exact hc
    rw [envAt_succ, stAt_succ, ampEnvStep_release_clamp _ h hc']
    exact ⟨rfl, rfl⟩
  · intro hc
    have hc' : ¬ (ampEnvStep^[n] s).envelope_ - releaseDec (ampEnvStep^[n] s) ≤ 0 := by
      rw [releaseDec_iterate]
      exact hc
    rw [envAt_succ, stAt_succ, ampEnvStep_release_go _ h hc']
    refine ⟨?_, h⟩
    show (ampEnvStep^[n] s).envelope_ - releaseDec (ampEnvStep^[n] s) = envAt s n - releaseDec s
    rw [releaseDec_iterate, envAt]

/-- One idle step: no work is performed. -/
lemma stAt_off_step (s : Synth) (n : ℕ) (h : stAt s n = EnvState.off) :
    envAt s (n + 1) = envAt s n ∧ stAt s (n + 1) = EnvState.off := by
  rw [envAt_succ, stAt_succ, ampEnvStep_off _ h]
  exact ⟨rfl, h⟩

/-- The amplitude envelope never leaves `[0, 1]` when the rates are
positive and it starts inside. -/
lemma envAt_bounds (s : Synth) (hinc : 0 < attackInc s) (hdec : 0 < releaseDec s)
    (h0 : 0 ≤ s.envelope_) (h1 : s.envelope_ ≤ 1) :
    ∀ n, 0 ≤ envAt s n ∧ envAt s n ≤ 1 := by
  intro n
  induction n with
  | zero => exact ⟨h0, h1⟩
  | succ n ih =>
    cases hst : stAt s n with
    | off =>
      obtain ⟨he, _⟩ := stAt_off_step s n hst
      rw [he]
      exact ih
    | attack =>
      by_cases hc : 1 ≤ envAt s n + attackInc s
      · obtain ⟨he, _⟩ := (stAt_attack_step s n hst).1 hc
        rw [he]
        norm_num
      · obtain ⟨he, _⟩ := (stAt_attack_step s n hst).2 hc
        rw [he]
        push_neg at hc
        constructor
        · linarith [ih.1]
        · linarith
    | decay =>
      by_cases hc : envAt s n - releaseDec s ≤ 0
      · obtain ⟨he, _⟩ := (stAt_decay_step s n hst).1 hc
        rw [he]
        norm_num
      · obtain ⟨he, _⟩ := (stAt_decay_step s n hst).2 hc
        rw [he]
        push_neg at hc
        constructor
        · linarith
        · linarith [ih.2]
    | release =>
      by_cases hc : envAt s n - releaseDec s ≤ 0
      · obtain ⟨he, _⟩ := (stAt_release_step s n hst).1 hc
        rw [he]
        norm_num
      · obtain ⟨he, _⟩ := (stAt_release_step s n hst).2 hc
        rw [he]
        push_neg at hc
        constructor
        · linarith
        · linarith [ih.2]

/-- Starting a trigger (envelope 0, state Attack) with a positive
increment, the machine stays in Attack with envelope `k · inc` until the
first step at which the sum reaches 1, where it clamps to exactly 1 and
enters Decay. -/
lemma attack_reaches_one (s : Synth) (hst : s.envelope_state_ = EnvState.attack)
    (h0 : s.envelope_ = 0) (hinc : 0 < attackInc s) :
    ∃ N, 0 < N ∧ (∀ k < N, stAt s k = EnvState.attack) ∧
      envAt s N = 1 ∧ stAt s N = EnvState.decay := by
  have hex : ∃ k : ℕ, 1 ≤ (k : ℚ) * attackInc s := by
    refine ⟨⌈(1 : ℚ) / attackInc s⌉₊, ?_⟩
    have hle := Nat.le_ceil ((1 : ℚ) / attackInc s)
    exact (div_le_iff₀ hinc).mp hle
  have hNspec : 1 ≤ ((Nat.find hex : ℕ) : ℚ) * attackInc s := Nat.find_spec hex
  have hlt : ∀ k < Nat.find hex, ¬ 1 ≤ (k : ℚ) * attackInc s := fun k hk =>
    Nat.find_min hex hk
  have hNpos : 0 < Nat.find hex := by
    rcases Nat.eq_zero_or_pos (Nat.find hex) with h | h
    · exfalso
      rw [h] at hNspec
      push_cast at hNspec
      linarith
    · exact h
  have hrun : ∀ k, k < Nat.find hex →
      stAt s k = EnvState.attack ∧ envAt s k = (k : ℚ) * attackInc s := by
    intro k
    induction k with
    | zero =>
      intro _
      refine ⟨hst, ?_⟩
      show s.envelope_ = ((0 : ℕ) : ℚ) * attackInc s
      rw [h0]
      push_cast
      ring
    | succ k ih =>
      intro hk
      obtain ⟨hsk, hek⟩ := ih (Nat.lt_of_succ_lt hk)
      have hnc : ¬ 1 ≤ envAt s k + attackInc s := by
        intro hcon
        refine hlt (k + 1) hk ?_
        rw [hek] at hcon
        push_cast
        linarith
      obtain ⟨he, hs⟩ := (stAt_attack_step s k hsk).2 hnc
      refine ⟨hs, ?_⟩
      rw [he, hek]
      push_cast
      ring
  obtain ⟨N', hN'⟩ : ∃ N', Nat.find hex = N' + 1 := ⟨Nat.find hex - 1, by omega⟩
  obtain ⟨hsN', heN'⟩ := hrun N' (by omega)
  have hc : 1 ≤ envAt s N' + attackInc s := by
    rw [heN']
    rw [hN'] at hNspec
    push_cast at hNspec ⊢
    linarith
  obtain ⟨he1, hs1⟩ := (stAt_attack_step s N' hsN').1 hc
  refine ⟨N' + 1, Nat.succ_pos _, ?_, he1, hs1⟩
  intro k hk
  exact (hrun k (by omega)).1

/-- Starting Decay at envelope exactly 1 with a positive decrement, the
machine stays in Decay with envelope `1 − j · dec` until the first step
at which the difference reaches 0, where it clamps to exactly 0 and goes
Idle. -/
lemma decay_reaches_zero (s : Synth) (hst : s.envelope_state_ = EnvState.decay)
    (h1 : s.envelope_ = 1) (hdec : 0 < releaseDec s) :
    ∃ M, 0 < M ∧ (∀ j < M, stAt s j = EnvState.decay) ∧
      envAt s M = 0 ∧ stAt s M = EnvState.off := by
  have hex : ∃ j : ℕ, (1 : ℚ) - (j : ℚ) * releaseDec s ≤ 0 := by
    refine ⟨⌈(1 : ℚ) / releaseDec s⌉₊, ?_⟩
    have hle := Nat.le_ceil ((1 : ℚ) / releaseDec s)
    have := (div_le_iff₀ hdec).mp hle
    linarith
  have hMspec : (1 : ℚ) - ((Nat.find hex : ℕ) : ℚ) * releaseDec s ≤ 0 := Nat.find_spec hex
  have hlt : ∀ j < Nat.find hex, ¬ (1 : ℚ) - (j : ℚ) * releaseDec s ≤ 0 := fun j hj =>
    Nat.find_min hex hj
  have hMpos : 0 < Nat.find hex := by
    rcases Nat.eq_zero_or_pos (Nat.find hex) with h | h
    · exfalso
      rw [h] at hMspec
      push_cast at hMspec
      linarith
    · exact h
  have hrun : ∀ j, j < Nat.find hex →
      stAt s j = EnvState.decay ∧ envAt s j = 1 - (j : ℚ) * releaseDec s := by
    intro j
    induction j with
    | zero =>
      intro _
      refine ⟨hst, ?_⟩
      show s.envelope_ = 1 - ((0 : ℕ) : ℚ) * releaseDec s
      rw [h1]
      push_cast
      ring
    | succ j ih =>
      intro hj
      obtain ⟨hsj, hej⟩ := ih (Nat.lt_of_succ_lt hj)
      have hnc : ¬ envAt s j - releaseDec s ≤ 0 := by
        intro hcon
        refine hlt (j + 1) hj ?_
        rw [hej] at hcon
        push_cast
        linarith
      obtain ⟨he, hs⟩ := (stAt_decay_step s j hsj).2 hnc
      refine ⟨hs, ?_⟩
      rw [he, hej]
      push_cast
      ring
  obtain ⟨M', hM'⟩ : ∃ M', Nat.find hex = M' + 1 := ⟨Nat.find hex - 1, by omega⟩
  obtain ⟨hsM', heM'⟩ := hrun M' (by omega)
  have hc : envAt s M' - releaseDec s ≤ 0 := by
    rw [heM']
    rw [hM'] at hMspec
    push_cast at hMspec ⊢
    linarith
  obtain ⟨he0, hs0⟩ := (stAt_decay_step s M' hsM').1 hc
  refine ⟨M' + 1, Nat.succ_pos _, ?_, he0, hs0⟩
  intro j hj
  exact (hrun j (by omega)).1

/-- Once Idle, the machine stays Idle with an unchanged envelope. -/
lemma off_forever (s : Synth) (hst : s.envelope_state_ = EnvState.off) :
    ∀ k, stAt s k = EnvState.off ∧ envAt s k = s.envelope_ := by
  intro k
  induction k with
  | zero => exact ⟨hst, rfl⟩
  | succ k ih =>
    obtain ⟨hs, he⟩ := ih
    obtain ⟨he', hs'⟩ := stAt_off_step s k hs
    exact ⟨hs', by rw [he', he]⟩

/-- Splitting an iterate run at an offset. -/
lemma envAt_add (s : Synth) (N j : ℕ) : envAt s (N + j) = envAt (ampEnvStep^[N] s) j := by
  rw [envAt, envAt, Nat.add_comm, Function.iterate_add_apply]

/-- Splitting a state run at an offset. -/
lemma stAt_add (s : Synth) (N j : ℕ) : stAt s (N + j) = stAt (ampEnvStep^[N] s) j := by
  rw [stAt, stAt, Nat.add_comm, Function.iterate_add_apply]

/-- The auxiliary decay block does not touch the amplitude envelope. -/
lemma auxEnvStep_envelope (t : Synth) : (auxEnvStep t).envelope_ = t.envelope_ := by
  unfold auxEnvStep
  split_ifs <;> rfl

/-- The auxiliary decay block does not touch the machine state. -/
lemma auxEnvStep_state (t : Synth) : (auxEnvStep t).envelope_state_ = t.envelope_state_ := by
  unfold auxEnvStep
  split_ifs <;> rfl

/-- C2: the amplitude-envelope machine of `process()` uses the increment
`1000/(attack_ms·48000)` in Attack and the decrement
`1000/(release_ms·48000)` in both Decay and Release (the decay stage
reuses the release constant), clamps to exactly 1.0 entering Decay and to
exactly 0.0 entering Idle, stays in `[0,1]`, rises monotonically to
exactly 1 and then falls monotonically to exactly 0 from a fresh
trigger — for all positive attack/release times. -/
theorem c2_amp_envelope_machine (s : Synth) (ha : 0 < s.attack_) (hr : 0 < s.release_) :
    C2Prop s := by
  have hden1 : 0 < s.attack_ / 1000 * k_samplerate := by
    unfold k_samplerate
    positivity
  have hden2 : 0 < s.release_ / 1000 * k_samplerate := by
    unfold k_samplerate
    positivity
  have hinc : 0 < attackInc s := by
    unfold attackInc
    positivity
  have hdec : 0 < releaseDec s := by
    unfold releaseDec
    positivity
  refine ⟨?_, ?_, ?_, ?_, ?_, ?_, ?_⟩
  · unfold attackInc k_samplerate
    rw [div_eq_div_iff (by positivity) (by positivity)]
    ring
  · unfold releaseDec k_samplerate
    rw [div_eq_div_iff (by positivity) (by positivity)]
    ring
  · intro m nA nB
    exact ⟨auxEnvStep_envelope (ampEnvStep s), auxEnvStep_state (ampEnvStep s)⟩
  · exact fun n h => stAt_attack_step s n h
  · intro n h
    rcases h with h | h
    · obtain ⟨hcl, hgo⟩ := stAt_decay_step s n h
      refine ⟨hcl, fun hc => ?_⟩
      obtain ⟨he, hs⟩ := hgo hc
      exact ⟨he, by rw [hs, h]⟩
    · obtain ⟨hcl, hgo⟩ := stAt_release_step s n h
      refine ⟨hcl, fun hc => ?_⟩
      obtain ⟨he, hs⟩ := hgo hc
      exact ⟨he, by rw [hs, h]⟩
  · intro h0 h1
    refine ⟨envAt_bounds s hinc hdec h0 h1, ?_, ?_⟩
    · intro n hst
      by_cases hc : 1 ≤ envAt s n + attackInc s
      · obtain ⟨he, _⟩ := (stAt_attack_step s n hst).1 hc
        rw [he]
        exact (envAt_bounds s hinc hdec h0 h1 n).2
      · obtain ⟨he, _⟩ := (stAt_attack_step s n hst).2 hc
        rw [he]
        linarith
    · intro n hst
      have hb := (envAt_bounds s hinc hdec h0 h1 n).1
      rcases hst with hst | hst
      · by_cases hc : envAt s n - releaseDec s ≤ 0
        · obtain ⟨he, _⟩ := (stAt_decay_step s n hst).1 hc
          rw [he]
          exact hb
        · obtain ⟨he, _⟩ := (stAt_decay_step s n hst).2 hc
          rw [he]
          linarith
      · by_cases hc : envAt s n - releaseDec s ≤ 0
        · obtain ⟨he, _⟩ := (stAt_release_step s n hst).1 hc
          rw [he]
          exact hb
        · obtain ⟨he, _⟩ := (stAt_release_step s n hst).2 hc
          rw [he]
          linarith
  · intro h0 hst
    obtain ⟨N, hNpos, hAll, hN1, hNdec⟩ := attack_reaches_one s hst h0 hinc
    have hdec' : 0 < releaseDec (ampEnvStep^[N] s) := by
      rw [releaseDec_iterate]
      exact hdec
    obtain ⟨M', hM'pos, hDAll, hM0, hMoff⟩ :=
      decay_reaches_zero (ampEnvStep^[N] s) hNdec hN1 hdec'
    refine ⟨N, N + M', hNpos, Nat.le_add_right N M', hAll, hN1, hNdec, ?_, ?_, ?_, ?_⟩
    · intro k hk1 hk2
      obtain ⟨j, rfl⟩ : ∃ j, k = N + j := ⟨k - N, by omega⟩
      rw [stAt_add]
      exact hDAll j (by omega)
    · rw [envAt_add]
      exact hM0
    · rw [stAt_add]
      exact hMoff
    · intro k hk
      obtain ⟨j, rfl⟩ : ∃ j, k = (N + M') + j := ⟨k - (N + M'), by omega⟩
      have hoff : stAt s (N + M') = EnvState.off := by
        rw [stAt_add]
        exact hMoff
      have henv : envAt s (N + M') = 0 := by
        rw [envAt_add]
        exact hM0
      obtain ⟨hs', he'⟩ := off_forever (ampEnvStep^[N + M'] s) hoff j
      constructor
      · rw [stAt_add]
        exact hs'
      · rw [envAt_add, he']
        exact henv

/-- Witness for C2 at the constructor state, whose attack and release
times are the positive defaults 2 ms and 300 ms. -/
theorem c2_amp_envelope_machine_witness : C2Prop defaultSynth :=
  c2_amp_envelope_machine defaultSynth (by decide) (by decide)

/-! ## Claim C3 -/

/-- C3: immediately after `NoteOn(note, velocity)` the amplitude envelope
is 0, the pitch/osc2/click envelopes are 1, the four filter accumulators
and the click high-pass history are 0, the machine is in Attack, the note
is recorded and the velocity is normalized by 127. -/
theorem c3_noteon_resets (s : Synth) (note velocity : ℕ) :
    (NoteOn note velocity s).envelope_ = 0 ∧
    (NoteOn note velocity s).pitch_envelope_ = 1 ∧
    (NoteOn note velocity s).osc2_envelope_ = 1 ∧
    (NoteOn note velocity s).click_envelope_ = 1 ∧
    (NoteOn note velocity s).filter_state_0 = 0 ∧
    (NoteOn note velocity s).filter_state_1 = 0 ∧
    (NoteOn note velocity s).filter_state_2 = 0 ∧
    (NoteOn note velocity s).filter_state_3 = 0 ∧
    (NoteOn note velocity s).last_noise_ = 0 ∧
    (NoteOn note velocity s).envelope_state_ = EnvState.attack ∧
    (NoteOn note velocity s).current_note_ = note ∧
    (NoteOn note velocity s).current_velocity_ = (velocity : ℚ) / 127 :=
  ⟨rfl, rfl, rfl, rfl, rfl, rfl, rfl, rfl, rfl, rfl, rfl, rfl⟩

/-! ## Claim C4 -/

/-- C4 counterexample: a matching `NoteOff` received while the machine is
Idle does not leave it Idle — the constructor state is Idle with current
note 0, yet `NoteOff(0)` moves the machine to Release. -/
theorem c4_noteoff_idle_counterexample :
    defaultSynth.envelope_state_ = EnvState.off ∧
    (NoteOff 0 defaultSynth).envelope_state_ = EnvState.release := by
  decide

/-- C4 amended: `NoteOff(n)` sets the envelope state to Release exactly
when `n` matches the current note or the `0xFF` wildcard, regardless of
the current machine state (including Idle); a non-matching `NoteOff` is a
complete no-op. -/
theorem c4_noteoff_amended (s : Synth) (note : ℕ) :
    ((note = s.current_note_ ∨ note = 255) →
      NoteOff note s = { s with envelope_state_ := EnvState.release }) ∧
    (¬(note = s.current_note_ ∨ note = 255) → NoteOff note s = s) := by
  constructor
  · intro h
    unfold NoteOff
    rw [if_pos h]
  · intro h
    unfold NoteOff
    rw [if_neg h]

/-- Witness for the amended C4 at a concrete matching call. -/
theorem c4_noteoff_amended_witness :
    NoteOff 0 defaultSynth = { defaultSynth with envelope_state_ := EnvState.release } :=
  (c4_noteoff_amended defaultSynth 0).1 (Or.inl (by decide))

/-! ## Claim C5 -/

/-- C5 counterexample: `reset()` does not leave every parameter
unchanged — with the filter enabled and in 24 dB mode beforehand, both
parameters read `false` afterwards. -/
theorem c5_reset_counterexample :
    ({ defaultSynth with filter_enabled_ := true, filter_mode_24db_ := true } : Synth).filter_enabled_ = true ∧
    (reset { defaultSynth with filter_enabled_ := true, filter_mode_24db_ := true }).filter_enabled_ = false ∧
    ({ defaultSynth with filter_enabled_ := true, filter_mode_24db_ := true } : Synth).filter_mode_24db_ = true ∧
    (reset { defaultSynth with filter_enabled_ := true, filter_mode_24db_ := true }).filter_mode_24db_ = false := by
  decide

/-- C5 amended: `reset()` re-zeros all Voice State (phases, envelopes,
machine to Idle, note/velocity, filter accumulators, click history) and
leaves every parameter unchanged EXCEPT the filter `enabled` and
`12/24 dB mode` parameters, which it forces to `false`. -/
theorem c5_reset_amended (s : Synth) :
    ((reset s).phase1_ = 0 ∧ (reset s).phase2_ = 0 ∧ (reset s).click_phase_ = 0 ∧
     (reset s).envelope_ = 0 ∧ (reset s).pitch_envelope_ = 0 ∧
     (reset s).osc2_envelope_ = 0 ∧ (reset s).click_envelope_ = 0 ∧
     (reset s).envelope_state_ = EnvState.off ∧
     (reset s).current_note_ = 0 ∧ (reset s).current_velocity_ = 0 ∧
     (reset s).filter_state_0 = 0 ∧ (reset s).filter_state_1 = 0 ∧
     (reset s).filter_state_2 = 0 ∧ (reset s).filter_state_3 = 0 ∧
     (reset s).last_noise_ = 0) ∧
    ((reset s).pitch_ = s.pitch_ ∧ (reset s).decay_ = s.decay_ ∧
     (reset s).pitch_curve_ = s.pitch_curve_ ∧ (reset s).body_level_ = s.body_level_ ∧
     (reset s).drive_ = s.drive_ ∧ (reset s).attack_ = s.attack_ ∧
     (reset s).release_ = s.release_ ∧ (reset s).click_level_ = s.click_level_ ∧
     (reset s).click_freq_ = s.click_freq_ ∧ (reset s).click_decay_ = s.click_decay_ ∧
     (reset s).click_tone_ = s.click_tone_ ∧ (reset s).filter_cutoff_ = s.filter_cutoff_ ∧
     (reset s).filter_resonance_ = s.filter_resonance_ ∧
     (reset s).osc2_enabled_ = s.osc2_enabled_ ∧ (reset s).osc2_waveform_ = s.osc2_waveform_ ∧
     (reset s).osc2_pitch_ = s.osc2_pitch_ ∧ (reset s).osc2_level_ = s.osc2_level_ ∧
     (reset s).fm_amount_ = s.fm_amount_ ∧ (reset s).fm_ratio_ = s.fm_ratio_ ∧
     (reset s).osc2_decay_ = s.osc2_decay_ ∧ (reset s).pulse_width_ = s.pulse_width_ ∧
     (reset s).preset_index_ = s.preset_index_) ∧
    ((reset s).filter_enabled_ = false ∧ (reset s).filter_mode_24db_ = false) :=
  ⟨⟨rfl, rfl, rfl, rfl, rfl, rfl, rfl, rfl, rfl, rfl, rfl, rfl, rfl, rfl, rfl⟩,
   ⟨rfl, rfl, rfl, rfl, rfl, rfl, rfl, rfl, rfl, rfl, rfl, rfl, rfl, rfl, rfl, rfl, rfl,
    rfl, rfl, rfl, rfl, rfl⟩,
   rfl, rfl⟩

/-! ## Claim C6 -/

/-- Neither envelope block touches the phase accumulators. -/
lemma envStage_phases (s : Synth) :
    (envStage s).phase1_ = s.phase1_ ∧ (envStage s).phase2_ = s.phase2_ ∧
    (envStage s).click_phase_ = s.click_phase_ := by
  unfold envStage
  refine ⟨?_, ?_, ?_⟩
  · rw [auxEnvStep_phase1, ampEnvStep_phase1]
  · rw [auxEnvStep_phase2, ampEnvStep_phase2]
  · rw [auxEnvStep_click_phase, ampEnvStep_click_phase]

/-- The conditional-subtraction wrap keeps a phase in `[0, 1)` whenever
the per-sample increment itself lies in `[0, 1)`. -/
lemma wrapPhase_mem (p d : ℚ) (hp0 : 0 ≤ p) (hp1 : p < 1) (hd0 : 0 ≤ d) (hd1 : d < 1) :
    0 ≤ wrapPhase (p + d) ∧ wrapPhase (p + d) < 1 := by
  unfold wrapPhase
  split_ifs with h <;> constructor <;> linarith

/-- C6 counterexample: with FM offset `sin(2π·3/4)·1·1·100 = -100`
against a 55 Hz body frequency, the body phase leaves `[0, 1)`: starting
from phase 0 it becomes `-3/3200 < 0`, because the wrap only subtracts at
the top. -/
theorem c6_phase_counterexample :
    s6.phase1_ = 0 ∧ (process m6 0 0 s6).2.phase1_ < 0 := by
  constructor
  · rfl
  · show wrapPhase ((envStage s6).phase1_ +
        (currentPitch (envStage s6) + fmMod m6 (envStage s6)) / k_samplerate) < 0
    rw [envStage_off s6 rfl]
    norm_num [s6, defaultSynth, initParams, reset, zeroSynth,
      currentPitch, fmMod, m6, wrapPhase, k_samplerate]

/-- C6 amended: each of the three phase accumulators stays in `[0, 1)`
across a `process()` call provided its per-sample increment
(instantaneous frequency / 48000) lies in `[0, 1)`; when the FM offset
makes the body increment negative the body phase can leave the interval,
since the wrap is only a conditional subtraction at the top. -/
theorem c6_phase_amended (m : MathOracle) (nA nB : ℚ) (s : Synth)
    (h1 : 0 ≤ s.phase1_ ∧ s.phase1_ < 1)
    (h2 : 0 ≤ s.phase2_ ∧ s.phase2_ < 1)
    (h3 : 0 ≤ s.click_phase_ ∧ s.click_phase_ < 1)
    (hf1 : 0 ≤ (currentPitch (envStage s) + fmMod m (envStage s)) / k_samplerate ∧
           (currentPitch (envStage s) + fmMod m (envStage s)) / k_samplerate < 1)
    (hf2 : 0 ≤ currentPitch (envStage s) * (envStage s).osc2_pitch_ * (envStage s).fm_ratio_ / k_samplerate ∧
           currentPitch (envStage s) * (envStage s).osc2_pitch_ * (envStage s).fm_ratio_ / k_samplerate < 1)
    (hf3 : 0 ≤ (envStage s).click_freq_ / k_samplerate ∧
           (envStage s).click_freq_ / k_samplerate < 1) :
    (0 ≤ (process m nA nB s).2.phase1_ ∧ (process m nA nB s).2.phase1_ < 1) ∧
    (0 ≤ (process m nA nB s).2.phase2_ ∧ (process m nA nB s).2.phase2_ < 1) ∧
    (0 ≤ (process m nA nB s).2.click_phase_ ∧ (process m nA nB s).2.click_phase_ < 1) := by
  obtain ⟨e1, e2, e3⟩ := envStage_phases s
  refine ⟨?_, ?_, ?_⟩
  · show 0 ≤ wrapPhase ((envStage s).phase1_ +
        (currentPitch (envStage s) + fmMod m (envStage s)) / k_samplerate) ∧
      wrapPhase ((envStage s).phase1_ +
        (currentPitch (envStage s) + fmMod m (envStage s)) / k_samplerate) < 1
    rw [e1]
    exact wrapPhase_mem _ _ h1.1 h1.2 hf1.1 hf1.2
  · show 0 ≤ wrapPhase ((envStage s).phase2_ +
        currentPitch (envStage s) * (envStage s).osc2_pitch_ * (envStage s).fm_ratio_ / k_samplerate) ∧
      wrapPhase ((envStage s).phase2_ +
        currentPitch (envStage s) * (envStage s).osc2_pitch_ * (envStage s).fm_ratio_ / k_samplerate) < 1
    rw [e2]
    exact wrapPhase_mem _ _ h2.1 h2.2 hf2.1 hf2.2
  · show 0 ≤ wrapPhase ((envStage s).click_phase_ + (envStage s).click_freq_ / k_samplerate) ∧
      wrapPhase ((envStage s).click_phase_ + (envStage s).click_freq_ / k_samplerate) < 1
    rw [e3]
    exact wrapPhase_mem _ _ h3.1 h3.2 hf3.1 hf3.2

/-- Witness for the amended C6: the constructor state with the zero
oracle satisfies every increment bound, so all three phases stay in
`[0, 1)`. -/
theorem c6_phase_amended_witness :
    (0 ≤ (process mZero 0 0 defaultSynth).2.phase1_ ∧ (process mZero 0 0 defaultSynth).2.phase1_ < 1) ∧
    (0 ≤ (process mZero 0 0 defaultSynth).2.phase2_ ∧ (process mZero 0 0 defaultSynth).2.phase2_ < 1) ∧
    (0 ≤ (process mZero 0 0 defaultSynth).2.click_phase_ ∧
      (process mZero 0 0 defaultSynth).2.click_phase_ < 1) :=
  c6_phase_amended mZero 0 0 defaultSynth
    (by norm_num [defaultSynth, initParams, reset, zeroSynth])
    (by norm_num [defaultSynth, initParams, reset, zeroSynth])
    (by norm_num [defaultSynth, initParams, reset, zeroSynth])
    (by rw [envStage_off defaultSynth rfl]
        norm_num [defaultSynth, initParams, reset, zeroSynth,
          currentPitch, fmMod, mZero, k_samplerate])
    (by rw [envStage_off defaultSynth rfl]
        norm_num [defaultSynth, initParams, reset, zeroSynth,
          currentPitch, fmMod, mZero, k_samplerate])
    (by rw [envStage_off defaultSynth rfl]
        norm_num [defaultSynth, initParams, reset, zeroSynth, k_samplerate])

/-! ## Claim C7 -/

/-- C7 counterexample: after validly loading preset 2, `loadPreset(7)` is
not ignored by `getPresetIndex` — it reports 7, not the last valid 2. -/
theorem c7_loadpreset_counterexample :
    getPresetIndex (LoadPreset 7 (LoadPreset 2 defaultSynth)) = 7 ∧
    getPresetIndex (LoadPreset 7 (LoadPreset 2 defaultSynth)) ≠ 2 := by
  decide

/-- C7 amended: `loadPreset(i)` with an unknown index `i ≥ 5` leaves the
parameter set and the voice state unchanged, but still records `i` as the
preset index, which `getPresetIndex` subsequently returns. -/
theorem c7_loadpreset_amended (s : Synth) (i : ℕ) (h : 5 ≤ i) :
    LoadPreset i s = { s with preset_index_ := i } ∧
    getPresetIndex (LoadPreset i s) = i := by
  obtain ⟨j, rfl⟩ : ∃ j, i = j + 5 := ⟨i - 5, by omega⟩
  constructor
  · rfl
  · rfl

/-- Witness for the amended C7 at the concrete unknown index 7. -/
theorem c7_loadpreset_amended_witness :
    LoadPreset 7 defaultSynth = { defaultSynth with preset_index_ := 7 } ∧
    getPresetIndex (LoadPreset 7 defaultSynth) = 7 :=
  c7_loadpreset_amended defaultSynth 7 (by decide)

/-! ## Claim C8 -/

/-- C8 counterexample: `getParameterStrValue(waveform index, 256)` does
not return the placeholder — the `(uint8_t)` cast wraps 256 to 0 and the
call returns `"Sine"`. -/
theorem c8_strvalue_counterexample :
    getParameterStrValue k_param_osc2_waveform 256 = "Sine" ∧
    getParameterStrValue k_param_osc2_waveform 256 ≠ "---" := by
  decide

/-- C8 amended: for the waveform parameter the value is first truncated
to a byte (`value mod 256`); bytes 0–4 select the five waveform names
(so values 0–4 behave as claimed), every other byte yields `"---"`; any
other parameter index yields `"---"` for every value. -/
theorem c8_strvalue_amended (index : ℕ) (v : ℤ) :
    (index ≠ k_param_osc2_waveform → getParameterStrValue index v = "---") ∧
    (index = k_param_osc2_waveform → 0 ≤ v → v ≤ 4 →
      getParameterStrValue index v = s_waveform_names.getD v.toNat "---") ∧
    (index = k_param_osc2_waveform → (v % 256).toNat < 5 →
      getParameterStrValue index v = s_waveform_names.getD (v % 256).toNat "---") ∧
    (index = k_param_osc2_waveform → 5 ≤ (v % 256).toNat →
      getParameterStrValue index v = "---") := by
  refine ⟨?_, ?_, ?_, ?_⟩
  · intro h
    unfold getParameterStrValue
    rw [if_neg h]
  · intro h h0 h4
    have hv : v % 256 = v := Int.emod_eq_of_lt h0 (by omega)
    unfold getParameterStrValue
    rw [if_pos h, hv, if_pos]
    show v.toNat < k_num_waves
    unfold k_num_waves
    omega
  · intro h h5
    unfold getParameterStrValue
    rw [if_pos h, if_pos]
    exact h5
  · intro h h5
    unfold getParameterStrValue
    rw [if_pos h, if_neg]
    unfold k_num_waves
    omega

/-- Witness for the amended C8: the in-range value 2 yields
`"Triangle"`, and the wrapped value 261 also yields a waveform name. -/
theorem c8_strvalue_amended_witness :
    getParameterStrValue k_param_osc2_waveform 2 = s_waveform_names.getD (2 : ℤ).toNat "---" :=
  (c8_strvalue_amended k_param_osc2_waveform 2).2.1 rfl (by decide) (by decide)

/-! ## Claim C9 -/

/-- C9: `Init` returns the sample-rate error exactly when the descriptor
sample rate differs from 48000; otherwise the geometry error exactly when
the channel count differs from 2; otherwise the success code after
re-zeroing the voice state and restoring default parameters.  On failure
the engine state is untouched. -/
theorem c9_init_errors (d : UnitRuntimeDesc) (s : Synth) :
    ((Init d s).1 = UnitErr.err_samplerate ↔ d.samplerate ≠ 48000) ∧
    ((Init d s).1 = UnitErr.err_geometry ↔ d.samplerate = 48000 ∧ d.output_channels ≠ 2) ∧
    ((Init d s).1 = UnitErr.err_none ↔ d.samplerate = 48000 ∧ d.output_channels = 2) ∧
    ((Init d s).1 ≠ UnitErr.err_none → (Init d s).2 = s) ∧
    ((Init d s).1 = UnitErr.err_none →
      (Init d s).2 = initParams (reset s) ∧
      (Init d s).2.envelope_ = 0 ∧ (Init d s).2.envelope_state_ = EnvState.off ∧
      (Init d s).2.phase1_ = 0 ∧ (Init d s).2.phase2_ = 0 ∧
      (Init d s).2.click_phase_ = 0 ∧ (Init d s).2.current_velocity_ = 0 ∧
      (Init d s).2.pitch_ = 55 ∧ (Init d s).2.attack_ = 2 ∧
      (Init d s).2.release_ = 300 ∧ (Init d s).2.preset_index_ = 0) := by
  unfold Init
  split_ifs with h1 h2
  · simp [h1]
  · rw [not_ne_iff] at h1
    simp [h1, h2]
  · rw [not_ne_iff] at h1
    rw [not_ne_iff] at h2
    refine ⟨by simp [h1], by simp [h1, h2], by simp [h1, h2], by simp, fun _ => ?_⟩
    exact ⟨rfl, rfl, rfl, rfl, rfl, rfl, rfl, rfl, rfl, rfl, rfl⟩

/-- Witness for C9 at a compatible descriptor and at two incompatible
ones. -/
theorem c9_init_errors_witness :
    (Init ⟨48000, 2⟩ defaultSynth).1 = UnitErr.err_none ∧
    (Init ⟨48000, 2⟩ defaultSynth).2.pitch_ = 55 ∧
    (Init ⟨44100, 2⟩ defaultSynth).1 = UnitErr.err_samplerate ∧
    (Init ⟨48000, 1⟩ defaultSynth).1 = UnitErr.err_geometry :=
  ⟨((c9_init_errors ⟨48000, 2⟩ defaultSynth).2.2.1).2 (by decide),
   ((c9_init_errors ⟨48000, 2⟩ defaultSynth).2.2.2.2 (by decide)).2.2.2.2.2.2.2.1,
   ((c9_init_errors ⟨44100, 2⟩ defaultSynth).1).2 (by decide),
   ((c9_init_errors ⟨48000, 1⟩ defaultSynth).2.1).2 (by decide)⟩

/-! ## Claim C10 -/

/-- C10: `NoteOn` leaves the three phase accumulators exactly as they
were (the oscillators run freely across retriggers), while `reset`
zeroes them. -/
theorem c10_noteon_keeps_phases (s : Synth) (note velocity : ℕ) :
    (NoteOn note velocity s).phase1_ = s.phase1_ ∧
    (NoteOn note velocity s).phase2_ = s.phase2_ ∧
    (NoteOn note velocity s).click_phase_ = s.click_phase_ ∧
    (reset s).phase1_ = 0 ∧ (reset s).phase2_ = 0 ∧ (reset s).click_phase_ = 0 :=
  ⟨rfl, rfl, rfl, rfl, rfl, rfl⟩

end KickSynth
